import Mathlib

/-!
Verification of the person_intel_crawler multi-source collection and
aggregation pipeline, as a shallow embedding of the Python source.

Conventions of the embedding:
* machine floats holding scores become `ℚ`; a score built by a division
  `a / b` in the source is built with the normalized-fraction constructor
  `mkRat a b` (propositionally equal to `(a : ℚ) / b` by
  `Rat.mkRat_eq_div`, proved where a claim needs the quotient form);
* wall-clock instants (`time.time()`) become explicit arguments from an
  arbitrary linearly ordered additive group `T` of time values,
  instantiated with `ℚ` or `Int` at will;
* string processing is carried out on `List Char` with structurally
  recursive helpers mirroring `str.lower`, `str.split`, `str.count`;
* fallible operations (network calls, LLM collaborator calls, pydantic
  validation) become `Except String _` values supplied as inputs, so a
  failing call is an ordinary value and every catch-branch of the source
  is an ordinary match;
* process-wide mutable state (rate-limiter windows, the cache directory,
  the workflow state dict) becomes explicit state passed through
  functions.
-/

namespace PersonIntel

/-! ## utils/retry.py — RetryHandler

`execute_with_retry` (and its sync twin, identical control flow) loops
`while retries <= self.max_retries`, counting failures in `retries`,
breaking and re-raising the last exception once `retries > max_retries`.
The operation is modelled as `op : Nat → Except E A`, where `op n` is the
outcome of the `(n+1)`-th invocation.  The result also carries the number
of invocations performed.
-/

/-- The retry loop.  `retries` is the failure counter of the source;
`attemptsLeft = max_retries - retries` counts down to the break
condition `retries > max_retries` (the loop exits, re-raising the last
exception, exactly when a failure occurs with no attempts left). -/
def execute_with_retry_go {E A : Type} (op : Nat → Except E A) :
    Nat → Nat → Except E A × Nat
  | retries, attemptsLeft =>
    match op retries, attemptsLeft with
    | .ok a, _ => (.ok a, retries + 1)
    | .error e, 0 => (.error e, retries + 1)
    | .error _, left + 1 => execute_with_retry_go op (retries + 1) left

def execute_with_retry {E A : Type} (maxRetries : Nat) (op : Nat → Except E A) :
    Except E A × Nat :=
  execute_with_retry_go op 0 maxRetries

/-! ## utils/rate_limiter.py — RateLimiter

`check_and_update` prunes the per-source timestamp list (keeping entries
with `current_time - ts <= period`), stores the pruned list back, denies
when the pruned length reaches `requests_per_period`, otherwise appends
the current timestamp and admits.  The per-source dict becomes a function
`String → List T` defaulting to `[]`.
-/

structure RateLimitConfig (T : Type) where
  requests_per_period : Nat
  period_seconds : T

abbrev RateLimiterState (T : Type) := String → List T

variable {T : Type} [LinearOrderedAddCommGroup T]

def prune_window (cfg : RateLimitConfig T) (now : T) (l : List T) : List T :=
  l.filter (fun ts => now - ts ≤ cfg.period_seconds)

def check_and_update (cfg : RateLimitConfig T) (now : T) (source : String)
    (st : RateLimiterState T) : Bool × RateLimiterState T :=
  let pruned := prune_window cfg now (st source)
  if cfg.requests_per_period ≤ pruned.length then
    (false, Function.update st source pruned)
  else
    (true, Function.update st source (pruned ++ [now]))

/-- A sequence of `check_and_update` calls on one source at given times,
returning the admission verdicts in order. -/
def admit_run (cfg : RateLimitConfig T) (source : String) :
    List T → RateLimiterState T → List Bool
  | [], _ => []
  | t :: ts, st =>
    let r := check_and_update cfg t source st
    r.1 :: admit_run cfg source ts r.2

/-- States of the rate limiter reachable from the initial empty dict by
`check_and_update` calls. -/
inductive RateLimiterReachable (cfg : RateLimitConfig T) : RateLimiterState T → Prop
  | init : RateLimiterReachable cfg (fun _ => [])
  | step (now : T) (source : String) {st : RateLimiterState T} :
      RateLimiterReachable cfg st →
      RateLimiterReachable cfg (check_and_update cfg now source st).2

/-! ## utils/cache.py — CacheManager

The backing store keyed by the md5 of the lowercased "query:source"
string (md5 collisions disregarded) is modelled as a function from the
combined lowercased key string to an optional entry
`{_timestamp, results}`.  `get` returns `none` when disabled, when no
entry exists, or when `now - timestamp > ttl`; `set` is a no-op when
disabled and otherwise overwrites the entry.
-/

structure CacheConfig (T : Type) where
  enabled : Bool
  ttl : T

structure CacheEntry (T V : Type) where
  timestamp : T
  results : V
deriving DecidableEq

abbrev CacheStore (T V : Type) := String → Option (CacheEntry T V)

/-- Python `str.lower`, characterwise. -/
def str_lower (s : String) : String :=
  String.mk (s.data.map Char.toLower)

def cache_key (query source : String) : String :=
  str_lower (query ++ ":" ++ source)

def cache_get {V : Type} (cfg : CacheConfig T) (now : T) (store : CacheStore T V)
    (query source : String) : Option V :=
  if cfg.enabled = false then none
  else
    match store (cache_key query source) with
    | none => none
    | some e => if cfg.ttl < now - e.timestamp then none else some e.results

def cache_set {V : Type} (cfg : CacheConfig T) (now : T) (store : CacheStore T V)
    (query source : String) (results : V) : CacheStore T V :=
  if cfg.enabled = false then store
  else Function.update store (cache_key query source) (some ⟨now, results⟩)

/-! ## utils/text_analyzer.py — TextAnalyzer.calculate_name_similarity

Jaccard similarity over the token sets of the two lowercased,
whitespace-split names; `0.0` when either input string is empty or when
the union of token sets is empty.  `split_tokens` reproduces Python
`str.split()` with no argument: maximal runs of non-separator characters,
no empty tokens.
-/

def split_tokens_go (p : Char → Bool) (cur : List Char) :
    List Char → List (List Char)
  | [] => if cur = [] then [] else [cur.reverse]
  | c :: rest =>
    if p c then
      (if cur = [] then split_tokens_go p [] rest
       else cur.reverse :: split_tokens_go p [] rest)
    else split_tokens_go p (c :: cur) rest

def split_tokens (p : Char → Bool) (cs : List Char) : List (List Char) :=
  split_tokens_go p [] cs

def name_tokens (name : String) : Finset String :=
  ((split_tokens (fun c => c.isWhitespace) (str_lower name).data).map String.mk).toFinset

def calculate_name_similarity (name1 name2 : String) : ℚ :=
  if name1 = "" ∨ name2 = "" then 0
  else
    let s1 := name_tokens name1
    let s2 := name_tokens name2
    let inter := (s1 ∩ s2).card
    let union := (s1 ∪ s2).card
    if 0 < union then mkRat inter union else 0

/-! ## crawlers/adverse_media_crawler.py — _calculate_article_relevance

Counts non-overlapping occurrences of each lowercased name token and of
the full lowercased name (the latter weighted double) in the lowercased
content, normalized by `10 + len(content)/1000`, capped at `1.0`;
`0.0` for empty content.  `count_occurrences` reproduces Python
`str.count`: a left-to-right non-overlapping scan advancing past each
match (tracked by the skip counter); an empty pattern counts `len + 1`
times.  The score
`(occ + exact) / (10 + len/1000)` is the fraction
`((occ + exact) * 1000) / (10000 + len)`, built with `mkRat`.
-/

def matches_at : List Char → List Char → Bool
  | [], _ => true
  | _ :: _, [] => false
  | a :: as, b :: bs => a = b && matches_at as bs

def count_occurrences_go (pat : List Char) : List Char → Nat → Nat
  | [], _ => 0
  | _ :: rest, skip + 1 => count_occurrences_go pat rest skip
  | c :: rest, 0 =>
    if matches_at pat (c :: rest) then
      1 + count_occurrences_go pat rest (pat.length - 1)
    else
      count_occurrences_go pat rest 0

def count_occurrences (s pat : List Char) : Nat :=
  match pat with
  | [] => s.length + 1
  | _ :: _ => count_occurrences_go pat s 0

def calculate_article_relevance (content name : String) : ℚ :=
  if content = "" then 0
  else
    let name_parts := split_tokens (fun c => c.isWhitespace) (str_lower name).data
    let content_lower := (str_lower content).data
    let name_occurrences : Nat :=
      (name_parts.map (fun part => count_occurrences content_lower part)).sum
    let exact_matches : Nat := count_occurrences content_lower (str_lower name).data * 2
    min (mkRat ((name_occurrences + exact_matches) * 1000) (10000 + content.length)) 1

/-! ## models/base_models.py, models/pep_models.py, models/media_models.py

Record variants, with floats as `ℚ`, datetimes as `T` (kept `ℚ` in the
records for simplicity), and `HttpUrl` as `String`.  Fields not consulted
by any embedded function or claim (start/end dates, related entities,
entity/keyword tags, ...) are omitted.
-/

inductive RiskLevel where
  | UNKNOWN
  | LOW
  | MEDIUM
  | HIGH
  | CRITICAL
deriving DecidableEq

structure SocialMediaProfile where
  platform : String
  username : String
deriving DecidableEq

structure PEPRecord where
  source : String
  name : String
  url : Option String
  position : Option String
  organization : Option String
  country : Option String
  sanctions : List String
  watchlists : List String
  risk_level : Option RiskLevel
  similarity_score : ℚ
deriving DecidableEq

structure NewsArticle where
  source : String
  title : String
  url : String
  published_date : Option ℚ
  authors : List String
  content : Option String
  summary : Option String
  relevance_score : ℚ
deriving DecidableEq

/-! ## crawlers: per-source accepted-candidate loops

`_search_opensanctions` (social_media_crawler.py, which holds the
`PEPDatabaseCrawler` class) iterates over the JSON candidates, computes
the name similarity, skips candidates strictly below
`config.similarity_threshold`, and builds a `PEPRecord` whose risk level
is derived from sanctions/position/political flags.  The fetched JSON
entity is modelled as a structured candidate.
-/

structure OSEntity where
  name : String
  id : String
  url : Option String
  position : Option String
  organization : Option String
  country : Option String
  sanctions : List String
  datasets : List String
  political : Bool

structure PEPSearchConfig where
  similarity_threshold : ℚ

def opensanctions_record (cfg : PEPSearchConfig) (qname : String) (entity : OSEntity) :
    Option PEPRecord :=
  let similarity := calculate_name_similarity entity.name qname
  if similarity < cfg.similarity_threshold then none
  else
    let fallback_url := "https://opensanctions.org/entities/" ++ entity.id
    let url := match entity.url with
      | some u => if u = "" then fallback_url else u
      | none => fallback_url
    let risk : RiskLevel :=
      if entity.sanctions ≠ [] then .HIGH
      else if ((match entity.position with | some p => decide (p ≠ "") | none => false)
          || entity.political) = true
        then .MEDIUM
      else .LOW
    some { source := "opensanctions", name := entity.name, url := some url,
           position := entity.position, organization := entity.organization,
           country := entity.country, sanctions := entity.sanctions,
           watchlists := entity.datasets, risk_level := some risk,
           similarity_score := similarity }

def search_opensanctions (cfg : PEPSearchConfig) (qname : String)
    (entities : List OSEntity) : List PEPRecord :=
  entities.filterMap (opensanctions_record cfg qname)

/-- A crawled article page from the Google News search path
(`_search_google_news`): the fetch and the regex extraction of
title/content/date/authors are external collaborators, so their results
are the input. -/
structure ArticlePage where
  url : String
  host : String
  title : Option String
  content : Option String
  published_date : Option ℚ
  authors : List String

def google_news_article (qname : String) (page : ArticlePage) : Option NewsArticle :=
  match page.title, page.content with
  | some title, some content =>
    if title = "" ∨ content = "" then none
    else
      let article : NewsArticle :=
        { source := "google_news:" ++ page.host, title := title, url := page.url,
          published_date := page.published_date, authors := page.authors,
          content := some content, summary := none,
          relevance_score := calculate_article_relevance content qname }
      if article.relevance_score < mkRat 3 10 then none else some article
  | _, _ => none

def search_google_news (qname : String) (pages : List ArticlePage) : List NewsArticle :=
  pages.filterMap (google_news_article qname)

/-! ## crawlers: family joins (`search` of the two crawlers)

Per-source tasks run under `asyncio.gather(..., return_exceptions=True)`;
a task outcome is an `Except`.  Exceptions are skipped, successful lists
are concatenated in source order.  The PEP family then sorts by
similarity descending; the news family removes URL duplicates (first
occurrence wins, tracked with a seen-set) and sorts by publication date
descending, a missing date behaving as `datetime.min` (`⊥`).
Python `list.sort` is stable, which `sort_desc_by` (a stable insertion
sort) reproduces.
-/

def join_ok {α : Type} (srcs : List (Except String (List α))) : List α :=
  srcs.foldl (fun acc r => match r with | .ok l => acc ++ l | .error _ => acc) []

def insert_desc {α K : Type} [LinearOrder K] (key : α → K) (x : α) :
    List α → List α
  | [] => [x]
  | y :: ys => if key x < key y then y :: insert_desc key x ys else x :: y :: ys

def sort_desc_by {α K : Type} [LinearOrder K] (key : α → K) (l : List α) : List α :=
  l.foldr (insert_desc key) []

def pep_family_search (srcs : List (Except String (List PEPRecord))) : List PEPRecord :=
  sort_desc_by (fun r => r.similarity_score) (join_ok srcs)

def media_dedup_go (seen : List String) : List NewsArticle → List NewsArticle
  | [] => []
  | a :: rest =>
    if a.url ∈ seen then media_dedup_go seen rest
    else a :: media_dedup_go (a.url :: seen) rest

def date_key (a : NewsArticle) : WithBot ℚ :=
  match a.published_date with
  | some d => (d : WithBot ℚ)
  | none => ⊥

def media_family_search (srcs : List (Except String (List NewsArticle))) :
    List NewsArticle :=
  sort_desc_by date_key (media_dedup_go [] (join_ok srcs))

/-- The de-duplication combinator of the specification text: keep the
first occurrence of each key, drop later ones. -/
def dedup_by_first {α K : Type} [DecidableEq K] (key : α → K) : List α → List α
  | [] => []
  | a :: rest => a :: dedup_by_first key (rest.filter (fun b => key b ≠ key a))
termination_by l => l.length
decreasing_by
  simp only [List.length_cons, Nat.lt_succ_iff]
  apply List.length_filter_le

/-! ## models/intelligence_models.py — PersonIntelligence

pydantic validates `confidence_score` with `ge=0.0, le=1.0`; a violating
construction raises, which the embedding renders as `Except`.  The error
list entries `{step, error}` become `step × message` pairs, the
observability sets become `Finset String`.
-/

structure PersonIntelligence where
  name : String
  social_media_profiles : List (String × List SocialMediaProfile)
  pep_records : List PEPRecord
  news_articles : List NewsArticle
  summary : String
  risk_level : RiskLevel
  confidence_score : ℚ
  sources_checked : Finset String
  sources_successful : Finset String
  errors : List (String × String)
deriving DecidableEq

def mk_person_intelligence (name : String)
    (profiles : List (String × List SocialMediaProfile)) (peps : List PEPRecord)
    (articles : List NewsArticle) (summary : String) (risk : RiskLevel)
    (confidence : ℚ) (checked successful : Finset String)
    (errors : List (String × String)) : Except String PersonIntelligence :=
  if 0 ≤ confidence ∧ confidence ≤ 1 then
    .ok { name := name, social_media_profiles := profiles, pep_records := peps,
          news_articles := articles, summary := summary, risk_level := risk,
          confidence_score := confidence, sources_checked := checked,
          sources_successful := successful, errors := errors }
  else
    .error "validation error: confidence_score must be in [0, 1]"

/-! ## agents/langraph_coordinator.py — the workflow state machine

The LangGraph state dict becomes a structure; `None` becomes `none`.
Each external collaborator call (search strategy LLM, the three analysis
agents, the summary agent, the risk text generation) is an oracle input
of type `Except String _`; the try/except of each node becomes a match.
The graph is a straight line with a three-way parallel fan-out over the
analysis nodes, which write disjoint fields; the embedding sequences
them, which is observationally identical.
-/

structure SearchStrategy where
  name : String
  platforms : List String
  search_terms : List String
  name_variations : List String
  regions : List String
  time_period : String

structure Oracles where
  strategyO : Except String SearchStrategy
  socialO : Except String String
  pepO : Except String String
  mediaO : Except String String
  summaryO : Except String String
  riskO : Except String String

structure WorkflowState where
  name : String
  search_strategy : Option SearchStrategy
  social_media_profiles : List (String × List SocialMediaProfile)
  pep_records : List PEPRecord
  news_articles : List NewsArticle
  social_media_analysis : Option String
  pep_analysis : Option String
  media_analysis : Option String
  intelligence_summary : Option String
  risk_level : Option RiskLevel
  confidence_score : Option ℚ
  risk_justification : Option String
  sources_checked : Finset String
  sources_successful : Finset String
  errors : List (String × String)
  result : Option PersonIntelligence

def generate_search_strategy (o : Oracles) (st : WorkflowState) : WorkflowState :=
  match o.strategyO with
  | .ok s => { st with search_strategy := some s }
  | .error e =>
    { st with
      errors := st.errors ++ [("generate_search_strategy", e)],
      search_strategy := some
        { name := st.name, platforms := ["twitter", "linkedin", "facebook"],
          search_terms := [st.name], name_variations := [], regions := [],
          time_period := "1 year" } }

/-- `article.source.split(':', 1)[0]`: the part before the first colon. -/
def before_colon (s : String) : String :=
  String.mk (s.data.takeWhile (fun c => c ≠ ':'))

def collect_data (st : WorkflowState) : WorkflowState :=
  let checked0 := if st.sources_checked = ∅ then (∅ : Finset String) else st.sources_checked
  let successful0 :=
    if st.sources_successful = ∅ then (∅ : Finset String) else st.sources_successful
  let social_srcs : Finset String :=
    if st.social_media_profiles = [] then ∅
    else (st.social_media_profiles.map (fun p => "social:" ++ p.1)).toFinset
  let pep_srcs : Finset String :=
    if st.pep_records = [] then ∅
    else (st.pep_records.map (fun r => "pep:" ++ r.source)).toFinset
  let media_srcs : Finset String :=
    if st.news_articles = [] then ∅
    else (st.news_articles.map (fun a => "media:" ++ before_colon a.source)).toFinset
  { st with
    sources_checked := checked0 ∪ social_srcs ∪ pep_srcs ∪ media_srcs,
    sources_successful := successful0 ∪ social_srcs ∪ pep_srcs ∪ media_srcs }

def analyze_social_media (o : Oracles) (st : WorkflowState) : WorkflowState :=
  match o.socialO with
  | .ok t => { st with social_media_analysis := some t }
  | .error e =>
    { st with
      errors := st.errors ++ [("analyze_social_media", e)],
      social_media_analysis := some "No relevant social media profiles were found." }

def analyze_pep_data (o : Oracles) (st : WorkflowState) : WorkflowState :=
  match o.pepO with
  | .ok t => { st with pep_analysis := some t }
  | .error e =>
    { st with
      errors := st.errors ++ [("analyze_pep_data", e)],
      pep_analysis :=
        some "No PEP (Politically Exposed Person) database matches were found." }

def analyze_media_data (o : Oracles) (st : WorkflowState) : WorkflowState :=
  match o.mediaO with
  | .ok t => { st with media_analysis := some t }
  | .error e =>
    { st with
      errors := st.errors ++ [("analyze_media_data", e)],
      media_analysis := some "No relevant media mentions were found." }

def generate_intelligence_summary (o : Oracles) (st : WorkflowState) : WorkflowState :=
  match o.summaryO with
  | .ok t => { st with intelligence_summary := some t }
  | .error e =>
    let sm := st.social_media_analysis.getD ""
    let pa := st.pep_analysis.getD ""
    let ma := st.media_analysis.getD ""
    let fb := "## Summary Report for " ++ st.name ++ "\n\n"
      ++ (if sm ≠ "" ∧ sm ≠ "No relevant social media profiles were found." then
            "### Social Media\n" ++ sm ++ "\n\n" else "")
      ++ (if pa ≠ "" ∧ pa ≠ "No PEP (Politically Exposed Person) database matches were found."
          then "### Political Exposure\n" ++ pa ++ "\n\n" else "")
      ++ (if ma ≠ "" ∧ ma ≠ "No relevant media mentions were found." then
            "### Media Coverage\n" ++ ma ++ "\n\n" else "")
    { st with
      errors := st.errors ++ [("generate_intelligence_summary", e)],
      intelligence_summary := some fb }

/-! ### agents/analysis_agents.py — RiskAssessmentAgent

The agent runs its own two-node sub-graph.  `generate_risk_assessment`
substitutes the string `"Error generating risk assessment: ..."` when the
LLM call fails; `extract_risk_components` parses the text, falling back
to `(UNKNOWN, 0.0)` on empty text or parse failure.  Both nodes append
their errors only to the sub-graph state, which `assess_risk` discards
when it returns the `(risk_level, confidence, justification)` triple —
hence the agent never raises and the coordinator node's except branch is
unreachable.
-/

def risk_token_of (w : String) : Option RiskLevel :=
  if w = "unknown" then some .UNKNOWN
  else if w = "low" then some .LOW
  else if w = "medium" then some .MEDIUM
  else if w = "high" then some .HIGH
  else if w = "critical" then some .CRITICAL
  else none

/-- Modelled from the spec: `RiskAssessmentTools.extract_risk_level` is
missing from the source (`agents/agent_tools.py` breaks off after
`SearchStrategyTools`); per spec section 4.6 the output is
"deterministically parse[d] ... for a risk-level token
(unknown/low/medium/high/critical, case-insensitive)", here the first
alphabetic word matching a token. -/
def find_risk_token (text : String) : Option RiskLevel :=
  ((split_tokens (fun c => !c.isAlpha) (str_lower text).data).map String.mk).findSome?
    risk_token_of

/-- Modelled from the spec: the "confidence percentage" half of the
missing `extract_risk_level` — the first run of digits that is directly
followed by a percent sign, accumulated left to right. -/
def find_percent_go (cur : Option Nat) : List Char → Option Nat
  | [] => none
  | c :: rest =>
    match cur with
    | some n =>
      if c.isDigit then
        find_percent_go (some (10 * n + (c.toNat - Char.toNat '0'))) rest
      else if c = '%' then some n
      else find_percent_go none rest
    | none =>
      if c.isDigit then
        find_percent_go (some (c.toNat - Char.toNat '0')) rest
      else find_percent_go none rest

def find_percent (cs : List Char) : Option Nat :=
  find_percent_go none cs

/-- Modelled from the spec: the missing
`RiskAssessmentTools.extract_risk_level(text)`, returning the parsed
risk-level token and the confidence percentage scaled to `[0,1]` by the
division by 100, or failing when either is absent. -/
def extract_risk_level (text : String) : Option (RiskLevel × ℚ) :=
  match find_risk_token text, find_percent text.data with
  | some l, some p => some (l, mkRat p 100)
  | _, _ => none

/-- The text reaching `extract_risk_components`: the LLM output on
success, the substituted error string from `generate_risk_assessment`
on failure. -/
def risk_input_text (r : Except String String) : String :=
  match r with
  | .ok t => t
  | .error e => "Error generating risk assessment: " ++ e

/-- `RiskAssessmentAgent.assess_risk`: runs the sub-graph and returns the
triple; sub-graph error entries are discarded with the sub-graph state. -/
def risk_agent_assess (riskO : Except String String) : RiskLevel × ℚ × String :=
  let assessment := risk_input_text riskO
  if assessment = "" then (.UNKNOWN, 0, "No risk assessment available.")
  else
    match extract_risk_level assessment with
    | some (l, c) => (l, c, assessment)
    | none => (.UNKNOWN, 0, "Error extracting risk components: parse failure")

/-- Coordinator node `assess_risk`.  The agent call is total (every
failure is caught inside the agent), so the node's except branch — the
only place that would append an `assess_risk` entry to the shared error
list — cannot run. -/
def assess_risk (o : Oracles) (st : WorkflowState) : WorkflowState :=
  let r := risk_agent_assess o.riskO
  { st with
    risk_level := some r.1,
    confidence_score := some r.2.1,
    risk_justification := some r.2.2 }

def create_result (st : WorkflowState) : WorkflowState :=
  match mk_person_intelligence st.name st.social_media_profiles st.pep_records
      st.news_articles (st.intelligence_summary.getD "")
      (st.risk_level.getD .UNKNOWN) (st.confidence_score.getD 0)
      st.sources_checked st.sources_successful st.errors with
  | .ok r => { st with result := some r }
  | .error e =>
    { st with
      errors := st.errors ++ [("create_result", e)],
      result := some
        { name := st.name, social_media_profiles := [], pep_records := [],
          news_articles := [],
          summary := "Error creating intelligence report: " ++ e,
          risk_level := .UNKNOWN, confidence_score := 0, sources_checked := ∅,
          sources_successful := ∅, errors := [] } }

def initial_state (name : String)
    (profiles : List (String × List SocialMediaProfile)) (peps : List PEPRecord)
    (articles : List NewsArticle) : WorkflowState :=
  { name := name, search_strategy := none, social_media_profiles := profiles,
    pep_records := peps, news_articles := articles, social_media_analysis := none,
    pep_analysis := none, media_analysis := none, intelligence_summary := none,
    risk_level := none, confidence_score := none, risk_justification := none,
    sources_checked := ∅, sources_successful := ∅, errors := [], result := none }

/-- The states the run passes through, in graph order (initial state,
then the state after each node). -/
def workflow_states (o : Oracles) (st0 : WorkflowState) : List WorkflowState :=
  let s1 := generate_search_strategy o st0
  let s2 := collect_data s1
  let s3 := analyze_social_media o s2
  let s4 := analyze_pep_data o s3
  let s5 := analyze_media_data o s4
  let s6 := generate_intelligence_summary o s5
  let s7 := assess_risk o s6
  let s8 := create_result s7
  [st0, s1, s2, s3, s4, s5, s6, s7, s8]

def run_workflow_state (o : Oracles) (st0 : WorkflowState) : WorkflowState :=
  create_result (assess_risk o (generate_intelligence_summary o (analyze_media_data o
    (analyze_pep_data o (analyze_social_media o (collect_data
      (generate_search_strategy o st0)))))))

/-- `LangGraphCoordinator.run_intelligence_workflow`: run the graph from
the initial state and return the assembled record, with the same default
record the source supplies when the `result` slot were missing. -/
def run_intelligence_workflow (o : Oracles) (name : String)
    (profiles : List (String × List SocialMediaProfile)) (peps : List PEPRecord)
    (articles : List NewsArticle) : PersonIntelligence :=
  (run_workflow_state o (initial_state name profiles peps articles)).result.getD
    { name := name, social_media_profiles := [], pep_records := [],
      news_articles := [], summary := "", risk_level := .UNKNOWN,
      confidence_score := 0, sources_checked := ∅, sources_successful := ∅,
      errors := [] }

/-! # Theorems -/

/-! ## C4 — retry controller -/

lemma execute_with_retry_go_ok {E A : Type} (op : Nat → Except E A) (a : A) :
    ∀ (j retries attemptsLeft : Nat), j ≤ attemptsLeft →
    (∀ i, i < j → ∃ e, op (retries + i) = .error e) →
    op (retries + j) = .ok a →
    execute_with_retry_go op retries attemptsLeft = (.ok a, retries + j + 1) := by
  intro j
  induction j with
  | zero =>
    intro retries attemptsLeft _ _ hok
    simp only [Nat.add_zero] at hok
    unfold execute_with_retry_go
    rw [hok]
  | succ j ih =>
    intro retries attemptsLeft hle hfail hok
    obtain ⟨e, he⟩ := hfail 0 (Nat.succ_pos j)
    rw [Nat.add_zero] at he
    obtain ⟨left, rfl⟩ : ∃ left, attemptsLeft = left + 1 :=
      ⟨attemptsLeft - 1, by omega⟩
    unfold execute_with_retry_go
    rw [he]
    have := ih (retries + 1) left (by omega)
      (fun i hi => by
        have := hfail (i + 1) (by omega)
        simpa [Nat.add_assoc, Nat.add_comm 1 i] using this)
      (by simpa [Nat.add_assoc, Nat.add_comm 1 j] using hok)
    simp only [this]
    congr 2
    omega

lemma execute_with_retry_go_err {E A : Type} (op : Nat → Except E A) (errf : Nat → E) :
    ∀ (attemptsLeft retries : Nat),
    (∀ i, i ≤ retries + attemptsLeft → op i = .error (errf i)) →
    execute_with_retry_go op retries attemptsLeft =
      (.error (errf (retries + attemptsLeft)), retries + attemptsLeft + 1) := by
  intro attemptsLeft
  induction attemptsLeft with
  | zero =>
    intro retries hfail
    unfold execute_with_retry_go
    rw [hfail retries (by omega)]
    simp
  | succ left ih =>
    intro retries hfail
    unfold execute_with_retry_go
    rw [hfail retries (by omega)]
    have := ih (retries + 1) (fun i hi => hfail i (by omega))
    simp only [this]
    have h1 : retries + 1 + left = retries + (left + 1) := by omega
    rw [h1]

/-- C4: an operation failing on its first `k ≤ max_retries` invocations
and succeeding on the next returns the success value after exactly `k+1`
invocations; an operation failing on every invocation is invoked exactly
`max_retries + 1` times and the call fails with the exception of the
final attempt. -/
theorem C4_retry_contract :
    (∀ (E A : Type) (maxRetries k : Nat) (op : Nat → Except E A) (a : A),
      k ≤ maxRetries →
      (∀ i, i < k → ∃ e, op i = .error e) →
      op k = .ok a →
      execute_with_retry maxRetries op = (.ok a, k + 1)) ∧
    (∀ (E A : Type) (maxRetries : Nat) (errf : Nat → E) (op : Nat → Except E A),
      (∀ i, i ≤ maxRetries → op i = .error (errf i)) →
      execute_with_retry maxRetries op = (.error (errf maxRetries), maxRetries + 1)) := by
  constructor
  · intro E A maxRetries k op a hk hfail hok
    have := execute_with_retry_go_ok op a k 0 maxRetries hk
      (fun i hi => by simpa using hfail i hi) (by simpa using hok)
    simpa [execute_with_retry] using this
  · intro E A maxRetries errf op hfail
    have := execute_with_retry_go_err op errf maxRetries 0
      (fun i hi => hfail i (by omega))
    simpa [execute_with_retry] using this

/-- Witness for C4: a concrete operation failing twice then succeeding
under `max_retries = 3`, and one failing always under `max_retries = 1`. -/
theorem C4_retry_contract_witness :
    execute_with_retry 3
        (fun i => if i < 2 then (Except.error "f" : Except String Nat) else .ok 42) =
      (.ok 42, 3) ∧
    execute_with_retry 1 (fun _ => (Except.error "e" : Except String Nat)) =
      (.error "e", 2) :=
  ⟨C4_retry_contract.1 String Nat 3 2 _ 42 (by omega)
      (fun i hi => ⟨"f", by simp [hi]⟩) (by simp),
   C4_retry_contract.2 String Nat 1 (fun _ => "e") _ (fun i _ => rfl)⟩

/-! ## C5 — rate limiter -/

lemma range_map_decide_lt (N : Nat) :
    (List.range (N + 1)).map (fun i => decide (i < N)) =
      List.replicate N true ++ [false] := by
  rw [List.range_succ, List.map_append]
  congr 1
  · apply List.eq_replicate_iff.mpr
    refine ⟨by simp, ?_⟩
    intro b hb
    simp only [List.mem_map, List.mem_range] at hb
    obtain ⟨i, hi, rfl⟩ := hb
    simp [hi]
  · simp

lemma admit_run_spec {T : Type} [LinearOrderedAddCommGroup T]
    (cfg : RateLimitConfig T) (source : String) :
    ∀ (ts : List T) (st : RateLimiterState T) (stored : List T),
    st source = stored →
    (∀ t ∈ ts, ∀ a ∈ stored, t - a ≤ cfg.period_seconds) →
    (∀ t ∈ ts, ∀ u ∈ ts, t - u ≤ cfg.period_seconds) →
    admit_run cfg source ts st =
      (List.range ts.length).map
        (fun i => decide (stored.length + i < cfg.requests_per_period)) := by
  intro ts
  induction ts with
  | nil => intro st stored _ _ _; rfl
  | cons t ts ih =>
    intro st stored hst h1 h2
    have hpr : prune_window cfg t (st source) = stored := by
      rw [hst]
      apply List.filter_eq_self.mpr
      intro a ha
      exact decide_eq_true (h1 t (by simp) a ha)
    rw [admit_run]
    simp only [check_and_update, hpr, List.length_cons, List.range_succ_eq_map,
      List.map_cons, List.map_map]
    by_cases hN : cfg.requests_per_period ≤ stored.length
    · rw [if_pos hN]
      have hrec := ih (Function.update st source stored) stored
        (Function.update_same _ _ _)
        (fun u hu a ha => h1 u (by simp [hu]) a ha)
        (fun u hu v hv => h2 u (by simp [hu]) v (by simp [hv]))
      simp only [hrec]
      congr 1
      · simp only [Nat.add_zero]
        exact (decide_eq_false (by omega)).symm
      · apply List.map_congr_left
        intro i _
        simp only [Function.comp_apply]
        have hA : ¬ (stored.length + i < cfg.requests_per_period) := by omega
        have hB : ¬ (stored.length + (i + 1) < cfg.requests_per_period) := by omega
        simp [hA, hB]
    · rw [if_neg hN]
      have hrec := ih (Function.update st source (stored ++ [t])) (stored ++ [t])
        (Function.update_same _ _ _)
        (fun u hu a ha => by
          rcases List.mem_append.mp ha with ha | ha
          · exact h1 u (by simp [hu]) a ha
          · simp only [List.mem_singleton] at ha
            subst ha
            exact h2 u (by simp [hu]) a (by simp))
        (fun u hu v hv => h2 u (by simp [hu]) v (by simp [hv]))
      simp only [hrec]
      congr 1
      · simp only [Nat.add_zero]
        exact (decide_eq_true (by omega)).symm
      · apply List.map_congr_left
        intro i _
        simp only [Function.comp_apply, List.length_append, List.length_singleton]
        congr 2
        omega

/-- C5: the admission check admits exactly when the pruned window is
strictly below `requests_per_period`; it stores the pruned window (plus
the new timestamp when admitted) for the requested source and leaves
other sources untouched; starting empty, `requests_per_period` calls
within one window are admitted and the next one is denied; once every
recorded timestamp is strictly older than the period the next call is
admitted again; the stored window of every reachable state never exceeds
`requests_per_period` entries. -/
theorem C5_rate_limiter_admission {T : Type} [LinearOrderedAddCommGroup T] :
    (∀ (cfg : RateLimitConfig T) (now : T) (source : String) (st : RateLimiterState T),
      ((check_and_update cfg now source st).1 = true ↔
        (prune_window cfg now (st source)).length < cfg.requests_per_period)) ∧
    (∀ (cfg : RateLimitConfig T) (now : T) (source : String) (st : RateLimiterState T),
      (check_and_update cfg now source st).2 source =
        (if (prune_window cfg now (st source)).length < cfg.requests_per_period
         then prune_window cfg now (st source) ++ [now]
         else prune_window cfg now (st source))) ∧
    (∀ (cfg : RateLimitConfig T) (now : T) (source : String) (st : RateLimiterState T)
      (s : String), s ≠ source → (check_and_update cfg now source st).2 s = st s) ∧
    (∀ (cfg : RateLimitConfig T) (source : String) (times : List T),
      times.length = cfg.requests_per_period + 1 →
      (∀ t ∈ times, ∀ u ∈ times, t - u ≤ cfg.period_seconds) →
      admit_run cfg source times (fun _ => []) =
        List.replicate cfg.requests_per_period true ++ [false]) ∧
    (∀ (cfg : RateLimitConfig T) (now : T) (source : String) (st : RateLimiterState T),
      0 < cfg.requests_per_period →
      (∀ a ∈ st source, cfg.period_seconds < now - a) →
      (check_and_update cfg now source st).1 = true) ∧
    (∀ (cfg : RateLimitConfig T) (st : RateLimiterState T),
      RateLimiterReachable cfg st →
      ∀ s, (st s).length ≤ cfg.requests_per_period) := by
  refine ⟨?_, ?_, ?_, ?_, ?_, ?_⟩
  · intro cfg now source st
    simp only [check_and_update]
    split
    · next h => simpa using h
    · next h => simpa using Nat.lt_of_not_le h
  · intro cfg now source st
    simp only [check_and_update]
    split
    · next h =>
      rw [if_neg (by omega)]
      simp [Function.update_same]
    · next h =>
      rw [if_pos (by omega)]
      simp [Function.update_same]
  · intro cfg now source st s hs
    simp only [check_and_update]
    split <;> simp [Function.update_noteq hs]
  · intro cfg source times hlen hwin
    have := admit_run_spec cfg source times (fun _ => []) [] rfl
      (by intro t _ a ha; simp at ha) hwin
    rw [this, hlen]
    simp only [List.length_nil, Nat.zero_add]
    exact range_map_decide_lt cfg.requests_per_period
  · intro cfg now source st hpos hold
    have hpr : prune_window cfg now (st source) = [] := by
      apply List.filter_eq_nil_iff.mpr
      intro a ha
      simp only [decide_eq_true_eq]
      exact not_le.mpr (hold a ha)
    simp only [check_and_update, hpr]
    have h0 : ¬ (cfg.requests_per_period ≤ ([] : List T).length) := by
      simp only [List.length_nil, not_le]
      exact hpos
    rw [if_neg h0]
  · intro cfg st hreach
    induction hreach with
    | init => intro s; simp
    | step now source hst ih =>
      intro s
      rename_i st'
      simp only [check_and_update]
      have hpr : (prune_window cfg now (st' source)).length ≤ (st' source).length :=
        List.length_filter_le _ _
      split
      · next h =>
        by_cases hs : s = source
        · subst hs
          simp only [Function.update_same]
          exact le_trans hpr (ih s)
        · simp only [Function.update_noteq hs]
          exact ih s
      · next h =>
        by_cases hs : s = source
        · subst hs
          simp only [Function.update_same, List.length_append, List.length_singleton]
          omega
        · simp only [Function.update_noteq hs]
          exact ih s

/-- Witness for C5: with `requests_per_period = 2`, `period_seconds = 10`
and integer times, three calls at times 0, 1, 2 give admit, admit, deny;
a call at time 20 against a window holding timestamp 0 is admitted; and
the empty initial state is reachable with windows within bound. -/
theorem C5_rate_limiter_admission_witness :
    admit_run (T := Int) ⟨2, 10⟩ "api" [0, 1, 2] (fun _ => []) =
      [true, true, false] ∧
    (check_and_update (T := Int) ⟨2, 10⟩ 20 "api" (fun _ => [0])).1 = true ∧
    ((((fun _ => []) : RateLimiterState Int)) "api").length ≤ 2 := by
  refine ⟨?_, ?_, ?_⟩
  · have := C5_rate_limiter_admission.2.2.2.1 (⟨2, 10⟩ : RateLimitConfig Int)
      "api" [0, 1, 2] (by decide) (by decide)
    simpa using this
  · exact C5_rate_limiter_admission.2.2.2.2.1 ⟨2, 10⟩ 20 "api" (fun _ => [0])
      (by decide) (by decide)
  · exact C5_rate_limiter_admission.2.2.2.2.2 ⟨2, 10⟩ (fun _ => [])
      RateLimiterReachable.init "api"

/-! ## C6, C10 — cache round-trip, expiry, and the disabled cache -/

/-- C6: with caching enabled, a `get` within `ttl` of a `set` returns the
stored payload, a `get` strictly after `ttl` returns absent, a stored
entry older than `ttl` is never returned, and `set` overwrites whatever
entry the key held.  (Per C10, `enabled = true` is the precondition under
which the round-trip contract is read.) -/
theorem C6_cache_round_trip {T : Type} [LinearOrderedAddCommGroup T] {V : Type} :
    ∀ (cfg : CacheConfig T), cfg.enabled = true →
    ∀ (tget tset : T) (store : CacheStore T V) (q s : String) (v : V),
    (tget - tset ≤ cfg.ttl →
      cache_get cfg tget (cache_set cfg tset store q s v) q s = some v) ∧
    (cfg.ttl < tget - tset →
      cache_get cfg tget (cache_set cfg tset store q s v) q s = none) ∧
    (∀ e, store (cache_key q s) = some e → cfg.ttl < tget - e.timestamp →
      cache_get cfg tget store q s = none) ∧
    (cache_set cfg tset store q s v (cache_key q s) = some ⟨tset, v⟩) := by
  intro cfg hen tget tset store q s v
  have hen' : ¬ (cfg.enabled = false) := by simp [hen]
  refine ⟨?_, ?_, ?_, ?_⟩
  · intro hfresh
    simp only [cache_get, cache_set, if_neg hen', Function.update_same]
    rw [if_neg (not_lt.mpr hfresh)]
  · intro hstale
    simp only [cache_get, cache_set, if_neg hen', Function.update_same]
    rw [if_pos hstale]
  · intro e he hstale
    simp only [cache_get, if_neg hen', he]
    rw [if_pos hstale]
  · simp only [cache_set, if_neg hen', Function.update_same]

/-- Witness for C6: an enabled integer-time cache with `ttl = 5`; a set
at time 0 is returned at time 3, gone at time 6, and the entry is the
stored pair. -/
theorem C6_cache_round_trip_witness :
    cache_get (V := Nat) (T := Int) ⟨true, 5⟩ 3
        (cache_set ⟨true, 5⟩ 0 (fun _ => none) "q" "s" 7) "q" "s" = some 7 ∧
    cache_get (V := Nat) (T := Int) ⟨true, 5⟩ 6
        (cache_set ⟨true, 5⟩ 0 (fun _ => none) "q" "s" 7) "q" "s" = none ∧
    cache_set (V := Nat) (T := Int) ⟨true, 5⟩ 0 (fun _ => none) "q" "s" 7
        (cache_key "q" "s") = some ⟨0, 7⟩ := by
  have h := C6_cache_round_trip (T := Int) (V := Nat) ⟨true, 5⟩ rfl 3 0
    (fun _ => none) "q" "s" 7
  have h6 := C6_cache_round_trip (T := Int) (V := Nat) ⟨true, 5⟩ rfl 6 0
    (fun _ => none) "q" "s" 7
  exact ⟨h.1 (by decide), h6.2.1 (by decide), h.2.2.2⟩

/-- C10: with caching disabled, `get` is constantly absent, `set` leaves
the store untouched, and consequently the round-trip after a `set`
still yields absent. -/
theorem C10_cache_disabled {T : Type} [LinearOrderedAddCommGroup T] {V : Type} :
    ∀ (cfg : CacheConfig T), cfg.enabled = false →
    ∀ (tget tset : T) (store : CacheStore T V) (q s : String) (v : V),
    cache_get cfg tget store q s = none ∧
    cache_set cfg tset store q s v = store ∧
    cache_get cfg tget (cache_set cfg tset store q s v) q s = none := by
  intro cfg hen tget tset store q s v
  refine ⟨?_, ?_, ?_⟩ <;> simp [cache_get, cache_set, hen]

/-- Witness for C10: a disabled integer-time cache ignores a set and
returns absent. -/
theorem C10_cache_disabled_witness :
    cache_get (V := Nat) (T := Int) ⟨false, 5⟩ 3 (fun _ => none) "q" "s" = none ∧
    cache_set (V := Nat) (T := Int) ⟨false, 5⟩ 0 (fun _ => none) "q" "s" 7 =
      (fun _ => none) ∧
    cache_get (V := Nat) (T := Int) ⟨false, 5⟩ 3
        (cache_set ⟨false, 5⟩ 0 (fun _ => none) "q" "s" 7) "q" "s" = none :=
  C10_cache_disabled ⟨false, 5⟩ rfl 3 0 (fun _ => none) "q" "s" 7

/-! ## C9 — entity matcher name similarity -/

lemma mkRat_nat_eq_div (i u : Nat) : (mkRat i u : ℚ) = (i : ℚ) / (u : ℚ) := by
  rw [Rat.mkRat_eq_div]
  norm_num

lemma mkRat_nat_nonneg (i u : Nat) : 0 ≤ mkRat (i : Nat) u := by
  rw [mkRat_nat_eq_div]
  positivity

lemma mkRat_nat_le_one {i u : Nat} (h : i ≤ u) : mkRat (i : Nat) u ≤ 1 := by
  rw [mkRat_nat_eq_div]
  rcases Nat.eq_zero_or_pos u with hu | hu
  · subst hu
    simp
  · rw [div_le_one (by positivity)]
    exact_mod_cast h

lemma mkRat_nat_self {u : Nat} (h : 0 < u) : mkRat (u : Nat) u = 1 := by
  rw [mkRat_nat_eq_div]
  exact div_self (by positivity)

lemma calculate_name_similarity_of_ne (a b : String) (ha : a ≠ "") (hb : b ≠ "") :
    calculate_name_similarity a b =
      if 0 < (name_tokens a ∪ name_tokens b).card
      then mkRat ((name_tokens a ∩ name_tokens b).card) ((name_tokens a ∪ name_tokens b).card)
      else 0 := by
  simp only [calculate_name_similarity]
  rw [if_neg (by simp [ha, hb])]

/-- Counterexample for C9: two whitespace-only names are non-empty
strings with equal (empty) token sets, yet the similarity is `0`, not the
`1.0` the claim requires for equal token sets — the `union > 0` guard of
the source returns `0.0` when both token sets are empty. -/
theorem C9_name_similarity_counterexample :
    (" " : String) ≠ "" ∧ ("  " : String) ≠ "" ∧
    name_tokens " " = name_tokens "  " ∧
    calculate_name_similarity " " "  " = 0 := by
  refine ⟨by decide, by decide, by decide, by decide⟩

/-- C9 (amended): `calculate_name_similarity` is the Jaccard similarity
of the lowercased whitespace-token sets — valued in `[0,1]`, symmetric,
`0` when either string is empty, equal to `|s₁ ∩ s₂| / |s₁ ∪ s₂]` when
the union is inhabited, `1.0` when the token sets are equal *and contain
at least one token*, and `0` when the token sets are disjoint. -/
theorem C9_name_similarity_contract : ∀ (a b : String),
    (0 ≤ calculate_name_similarity a b ∧ calculate_name_similarity a b ≤ 1) ∧
    calculate_name_similarity a b = calculate_name_similarity b a ∧
    (a = "" ∨ b = "" → calculate_name_similarity a b = 0) ∧
    (a ≠ "" → b ≠ "" → 0 < (name_tokens a ∪ name_tokens b).card →
      calculate_name_similarity a b =
        ((name_tokens a ∩ name_tokens b).card : ℚ) /
          ((name_tokens a ∪ name_tokens b).card : ℚ)) ∧
    (a ≠ "" → b ≠ "" → name_tokens a = name_tokens b → (name_tokens a).Nonempty →
      calculate_name_similarity a b = 1) ∧
    (Disjoint (name_tokens a) (name_tokens b) → calculate_name_similarity a b = 0) := by
  intro a b
  have hsub : (name_tokens a ∩ name_tokens b).card ≤ (name_tokens a ∪ name_tokens b).card :=
    Finset.card_le_card Finset.inter_subset_union
  refine ⟨?_, ?_, ?_, ?_, ?_, ?_⟩
  · by_cases h : a = "" ∨ b = ""
    · simp only [calculate_name_similarity, if_pos h]
      norm_num
    · push_neg at h
      rw [calculate_name_similarity_of_ne a b h.1 h.2]
      split
      · exact ⟨mkRat_nat_nonneg _ _, mkRat_nat_le_one hsub⟩
      · norm_num
  · by_cases h : a = "" ∨ b = ""
    · simp only [calculate_name_similarity, if_pos h, if_pos (Or.symm h)]
    · push_neg at h
      rw [calculate_name_similarity_of_ne a b h.1 h.2,
        calculate_name_similarity_of_ne b a h.2 h.1,
        Finset.union_comm (name_tokens b), Finset.inter_comm (name_tokens b)]
  · intro h
    simp only [calculate_name_similarity, if_pos h]
  · intro ha hb hpos
    rw [calculate_name_similarity_of_ne a b ha hb, if_pos hpos, mkRat_nat_eq_div]
  · intro ha hb heq hne
    rw [heq] at hne
    rw [calculate_name_similarity_of_ne a b ha hb, heq, Finset.inter_self,
      Finset.union_self]
    rw [if_pos (Finset.card_pos.mpr hne)]
    exact mkRat_nat_self (Finset.card_pos.mpr hne)
  · intro hdis
    have hzero : (name_tokens a ∩ name_tokens b).card = 0 := by
      rw [Finset.disjoint_iff_inter_eq_empty.mp hdis]
      exact Finset.card_empty
    by_cases h : a = "" ∨ b = ""
    · simp only [calculate_name_similarity, if_pos h]
    · push_neg at h
      rw [calculate_name_similarity_of_ne a b h.1 h.2]
      split
      · rw [hzero, mkRat_nat_eq_div, Nat.cast_zero, zero_div]
      · rfl

/-- Witness for C9: the worked examples of the specification —
`"John Smith"` against itself, `"John Smith"` against `"Jane Doe"`, and
an empty first name. -/
theorem C9_name_similarity_contract_witness :
    calculate_name_similarity "John Smith" "John Smith" = 1 ∧
    calculate_name_similarity "John Smith" "Jane Doe" = 0 ∧
    calculate_name_similarity "" "x" = 0 :=
  ⟨(C9_name_similarity_contract "John Smith" "John Smith").2.2.2.2.1 (by decide)
      (by decide) rfl ⟨"john", by decide⟩,
   (C9_name_similarity_contract "John Smith" "Jane Doe").2.2.2.2.2
      (Finset.disjoint_left.mpr (by decide)),
   (C9_name_similarity_contract "" "x").2.2.1 (Or.inl rfl)⟩

/-! ## C7, C3 — family joins: ordering, de-duplication, thresholds -/

lemma insert_desc_perm {α K : Type} [LinearOrder K] (key : α → K) (x : α) :
    ∀ (l : List α), List.Perm (insert_desc key x l) (x :: l) := by
  intro l
  induction l with
  | nil => rfl
  | cons y ys ih =>
    rw [insert_desc]
    split
    · exact List.Perm.trans (ih.cons y) (List.Perm.swap x y ys)
    · exact List.Perm.refl _

lemma sort_desc_by_perm {α K : Type} [LinearOrder K] (key : α → K) :
    ∀ (l : List α), List.Perm (sort_desc_by key l) l := by
  intro l
  induction l with
  | nil => exact List.Perm.refl _
  | cons x xs ih =>
    exact List.Perm.trans (insert_desc_perm key x (sort_desc_by key xs)) (ih.cons x)

lemma mem_sort_desc_by {α K : Type} [LinearOrder K] (key : α → K) (l : List α)
    (a : α) : a ∈ sort_desc_by key l ↔ a ∈ l :=
  (sort_desc_by_perm key l).mem_iff

lemma sorted_insert_desc {α K : Type} [LinearOrder K] (key : α → K) (x : α) :
    ∀ (l : List α), l.Sorted (fun a b => key b ≤ key a) →
    (insert_desc key x l).Sorted (fun a b => key b ≤ key a) := by
  intro l
  induction l with
  | nil => intro _; simp [insert_desc]
  | cons y ys ih =>
    intro hs
    rw [List.sorted_cons] at hs
    rw [insert_desc]
    split
    · next hlt =>
      rw [List.sorted_cons]
      refine ⟨?_, ih hs.2⟩
      intro b hb
      rcases List.mem_cons.mp ((insert_desc_perm key x ys).mem_iff.mp hb) with rfl | hb
      · exact le_of_lt hlt
      · exact hs.1 b hb
    · next hge =>
      rw [List.sorted_cons]
      refine ⟨?_, List.sorted_cons.mpr hs⟩
      intro b hb
      rcases List.mem_cons.mp hb with rfl | hb
      · exact not_lt.mp hge
      · exact le_trans (hs.1 b hb) (not_lt.mp hge)

lemma sorted_sort_desc_by {α K : Type} [LinearOrder K] (key : α → K) :
    ∀ (l : List α), (sort_desc_by key l).Sorted (fun a b => key b ≤ key a) := by
  intro l
  induction l with
  | nil => simp [sort_desc_by]
  | cons x xs ih => exact sorted_insert_desc key x (sort_desc_by key xs) ih

lemma mem_join_ok {α : Type} (srcs : List (Except String (List α))) (a : α) :
    a ∈ join_ok srcs → ∃ l, Except.ok l ∈ srcs ∧ a ∈ l := by
  suffices h : ∀ (srcs : List (Except String (List α))) (acc : List α),
      a ∈ srcs.foldl
        (fun acc r => match r with | .ok l => acc ++ l | .error _ => acc) acc →
      a ∈ acc ∨ ∃ l, Except.ok l ∈ srcs ∧ a ∈ l by
    intro hmem
    rcases h srcs [] hmem with hacc | hex
    · simp at hacc
    · exact hex
  intro srcs
  induction srcs with
  | nil => intro acc h; exact Or.inl h
  | cons r rs ih =>
    intro acc h
    rcases r with e | l
    · rcases ih acc h with hacc | ⟨l, hl, hal⟩
      · exact Or.inl hacc
      · exact Or.inr ⟨l, List.mem_cons_of_mem _ hl, hal⟩
    · rcases ih (acc ++ l) h with hacc | ⟨l', hl', hal'⟩
      · rcases List.mem_append.mp hacc with h1 | h1
        · exact Or.inl h1
        · exact Or.inr ⟨l, List.mem_cons_self _ _, h1⟩
      · exact Or.inr ⟨l', List.mem_cons_of_mem _ hl', hal'⟩

lemma mem_media_dedup_go (a : NewsArticle) :
    ∀ (l : List NewsArticle) (seen : List String),
    a ∈ media_dedup_go seen l → a ∈ l := by
  intro l
  induction l with
  | nil => intro seen h; simp [media_dedup_go] at h
  | cons b rest ih =>
    intro seen h
    rw [media_dedup_go] at h
    split at h
    · exact List.mem_cons_of_mem _ (ih seen h)
    · rcases List.mem_cons.mp h with rfl | h
      · exact List.mem_cons_self _ _
      · exact List.mem_cons_of_mem _ (ih _ h)

lemma media_dedup_go_eq :
    ∀ (l : List NewsArticle) (seen : List String),
    media_dedup_go seen l =
      dedup_by_first (fun a => a.url)
        (l.filter (fun a => decide (a.url ∉ seen))) := by
  intro l
  induction l with
  | nil => intro seen; simp [media_dedup_go, dedup_by_first]
  | cons a rest ih =>
    intro seen
    rw [media_dedup_go]
    by_cases hmem : a.url ∈ seen
    · rw [if_pos hmem, List.filter_cons_of_neg (by simpa using hmem)]
      exact ih seen
    · rw [if_neg hmem, List.filter_cons_of_pos (by simpa using hmem)]
      rw [dedup_by_first, ih (a.url :: seen)]
      congr 1
      rw [List.filter_filter]
      congr 1
      apply List.filter_congr
      intro x _
      simp [List.mem_cons, not_or, Bool.decide_and]

/-- The two concrete registry records of the C7 counterexample: distinct
records, one per source, sharing the same canonical URL and similarity. -/
def c7_record_one : PEPRecord :=
  ⟨"s1", "A", some "https://x", none, none, none, [], [], none, mkRat 9 10⟩

def c7_record_two : PEPRecord :=
  ⟨"s2", "B", some "https://x", none, none, none, [], [], none, mkRat 9 10⟩

/-- Counterexample for C7: the PEP family `search` concatenates and sorts
but never de-duplicates by URL, so two same-URL records from two sources
both reach the family result, while the claimed
concatenate-dedup-sort pipeline would keep only the first. -/
theorem C7_family_result_counterexample :
    pep_family_search [.ok [c7_record_one], .ok [c7_record_two]] ≠
      sort_desc_by (fun r : PEPRecord => r.similarity_score)
        (dedup_by_first (fun r : PEPRecord => r.url)
          (join_ok [.ok [c7_record_one], .ok [c7_record_two]])) := by
  have h : dedup_by_first (fun r : PEPRecord => r.url)
      (join_ok [.ok [c7_record_one], .ok [c7_record_two]]) = [c7_record_one] := by
    simp [dedup_by_first, join_ok, c7_record_one, c7_record_two]
  rw [h]
  decide

/-- C7 (amended): the news family result is exactly the concatenation of
the per-source accepted lists, de-duplicated by canonical URL with the
first occurrence winning, and stably sorted by publication recency
descending (missing dates sorting last); the registry family result is
the concatenation stably sorted by similarity descending **without** any
URL de-duplication (it is a permutation of the full concatenation). -/
theorem C7_family_result_shape :
    (∀ (srcs : List (Except String (List NewsArticle))),
      media_family_search srcs =
        sort_desc_by date_key
          (dedup_by_first (fun a => a.url) (join_ok srcs))) ∧
    (∀ (srcs : List (Except String (List NewsArticle))),
      (media_family_search srcs).Sorted (fun a b => date_key b ≤ date_key a)) ∧
    (∀ (srcs : List (Except String (List NewsArticle))),
      List.Perm (media_family_search srcs)
        (dedup_by_first (fun a => a.url) (join_ok srcs))) ∧
    (∀ (srcs : List (Except String (List PEPRecord))),
      List.Perm (pep_family_search srcs) (join_ok srcs)) ∧
    (∀ (srcs : List (Except String (List PEPRecord))),
      (pep_family_search srcs).Sorted
        (fun a b => b.similarity_score ≤ a.similarity_score)) := by
  have hmedia : ∀ (srcs : List (Except String (List NewsArticle))),
      media_family_search srcs =
        sort_desc_by date_key (dedup_by_first (fun a => a.url) (join_ok srcs)) := by
    intro srcs
    rw [media_family_search, media_dedup_go_eq]
    congr 2
    apply List.filter_eq_self.mpr
    intro a _
    simp
  refine ⟨hmedia, ?_, ?_, ?_, ?_⟩
  · intro srcs
    rw [hmedia]
    exact sorted_sort_desc_by date_key _
  · intro srcs
    rw [hmedia]
    exact sort_desc_by_perm date_key _
  · intro srcs
    exact sort_desc_by_perm _ _
  · intro srcs
    exact sorted_sort_desc_by _ _

/-- C3: every record accepted by the OpenSanctions candidate loop scores
at or above the configured similarity threshold, every article accepted
by the Google News candidate loop scores at or above the relevance
threshold `3/10 = 0.3`, and every record of a family result comes from
some successful per-source list — so the per-source gates carry over to
everything reaching the aggregate. -/
theorem C3_threshold_gate :
    (∀ (cfg : PEPSearchConfig) (qname : String) (entities : List OSEntity)
      (r : PEPRecord), r ∈ search_opensanctions cfg qname entities →
      cfg.similarity_threshold ≤ r.similarity_score) ∧
    (∀ (qname : String) (pages : List ArticlePage) (a : NewsArticle),
      a ∈ search_google_news qname pages →
      mkRat 3 10 ≤ a.relevance_score) ∧
    ((mkRat 3 10 : ℚ) = 3 / 10) ∧
    (∀ (srcs : List (Except String (List PEPRecord))) (r : PEPRecord),
      r ∈ pep_family_search srcs → ∃ l, Except.ok l ∈ srcs ∧ r ∈ l) ∧
    (∀ (srcs : List (Except String (List NewsArticle))) (a : NewsArticle),
      a ∈ media_family_search srcs → ∃ l, Except.ok l ∈ srcs ∧ a ∈ l) := by
  refine ⟨?_, ?_, ?_, ?_, ?_⟩
  · intro cfg qname entities r hr
    obtain ⟨e, _, he⟩ := List.mem_filterMap.mp hr
    simp only [opensanctions_record] at he
    split at he
    · exact absurd he (by simp)
    · next hth =>
      obtain rfl := Option.some.inj he
      exact not_lt.mp hth
  · intro qname pages a ha
    obtain ⟨p, _, hp⟩ := List.mem_filterMap.mp ha
    simp only [google_news_article] at hp
    split at hp
    · next title content _ _ =>
      split at hp
      · exact absurd hp (by simp)
      · split at hp
        · exact absurd hp (by simp)
        · next hth =>
          obtain rfl := Option.some.inj hp
          exact not_lt.mp hth
    · exact absurd hp (by simp)
  · rw [Rat.mkRat_eq_div]
    norm_num
  · intro srcs r hr
    exact mem_join_ok srcs r ((sort_desc_by_perm _ _).mem_iff.mp hr)
  · intro srcs a ha
    have h1 := (sort_desc_by_perm date_key _).mem_iff.mp ha
    exact mem_join_ok srcs a (mem_media_dedup_go a _ [] h1)

/-- The concrete inputs of the C3 witness: a perfectly matching
OpenSanctions candidate, and a Google News page whose content repeats
the subject name. -/
def c3_entity : OSEntity :=
  ⟨"John Smith", "e1", none, none, none, none, [], [], false⟩

def c3_pep_record : PEPRecord :=
  ⟨"opensanctions", "John Smith", some "https://opensanctions.org/entities/e1",
   none, none, none, [], [], some .LOW, 1⟩

def c3_page : ArticlePage :=
  ⟨"https://a", "h", some "T", some "Ann Bo Ann Bo Ann Bo", none, []⟩

def c3_news_article : NewsArticle :=
  ⟨"google_news:h", "T", "https://a", none, [],
   some "Ann Bo Ann Bo Ann Bo", none,
   calculate_article_relevance "Ann Bo Ann Bo Ann Bo" "Ann Bo"⟩

/-- Witness for C3: the gates evaluated on the concrete candidates, and
the provenance of a concrete family result record. -/
theorem C3_threshold_gate_witness :
    mkRat 85 100 ≤ c3_pep_record.similarity_score ∧
    mkRat 3 10 ≤ c3_news_article.relevance_score ∧
    (∃ l, Except.ok l ∈ ([Except.ok [c3_pep_record]] :
        List (Except String (List PEPRecord))) ∧ c3_pep_record ∈ l) :=
  ⟨C3_threshold_gate.1 ⟨mkRat 85 100⟩ "John Smith" [c3_entity] c3_pep_record
      (by decide),
   C3_threshold_gate.2.1 "Ann Bo" [c3_page] c3_news_article (by decide),
   C3_threshold_gate.2.2.2.1 [Except.ok [c3_pep_record]] c3_pep_record (by decide)⟩

/-! ## C1, C2, C8 — workflow totality, observability invariant, risk path -/

lemma risk_level_cases (rl : RiskLevel) :
    rl = .UNKNOWN ∨ rl = .LOW ∨ rl = .MEDIUM ∨ rl = .HIGH ∨ rl = .CRITICAL := by
  cases rl <;> simp

lemma mk_person_intelligence_ok {name : String}
    {profiles : List (String × List SocialMediaProfile)} {peps : List PEPRecord}
    {articles : List NewsArticle} {summary : String} {risk : RiskLevel}
    {confidence : ℚ} {checked successful : Finset String}
    {errors : List (String × String)} {r : PersonIntelligence}
    (h : mk_person_intelligence name profiles peps articles summary risk confidence
      checked successful errors = .ok r) :
    r = { name := name, social_media_profiles := profiles, pep_records := peps,
          news_articles := articles, summary := summary, risk_level := risk,
          confidence_score := confidence, sources_checked := checked,
          sources_successful := successful, errors := errors } ∧
    0 ≤ confidence ∧ confidence ≤ 1 := by
  simp only [mk_person_intelligence] at h
  split at h
  · next hc => exact ⟨(Except.ok.inj h).symm, hc⟩
  · exact absurd h (by simp)

lemma mk_person_intelligence_err {name : String}
    {profiles : List (String × List SocialMediaProfile)} {peps : List PEPRecord}
    {articles : List NewsArticle} {summary : String} {risk : RiskLevel}
    {confidence : ℚ} {checked successful : Finset String}
    {errors : List (String × String)} {e : String}
    (h : mk_person_intelligence name profiles peps articles summary risk confidence
      checked successful errors = .error e) :
    ¬ (0 ≤ confidence ∧ confidence ≤ 1) := by
  simp only [mk_person_intelligence] at h
  split at h
  · exact absurd h (by simp)
  · next hc => exact hc

lemma create_result_spec (st : WorkflowState) :
    ∃ r, (create_result st).result = some r ∧
      0 ≤ r.confidence_score ∧ r.confidence_score ≤ 1 ∧
      ((r.risk_level = st.risk_level.getD .UNKNOWN ∧
        r.confidence_score = st.confidence_score.getD 0 ∧
        r.sources_checked = st.sources_checked ∧
        r.sources_successful = st.sources_successful) ∨
       (r.risk_level = .UNKNOWN ∧ r.sources_checked = ∅ ∧
        r.sources_successful = ∅ ∧
        ¬ (0 ≤ st.confidence_score.getD 0 ∧ st.confidence_score.getD 0 ≤ 1))) := by
  unfold create_result
  cases hmk : mk_person_intelligence st.name st.social_media_profiles st.pep_records
      st.news_articles (st.intelligence_summary.getD "")
      (st.risk_level.getD .UNKNOWN) (st.confidence_score.getD 0)
      st.sources_checked st.sources_successful st.errors with
  | ok r =>
    obtain ⟨hr, h0, h1⟩ := mk_person_intelligence_ok hmk
    subst hr
    exact ⟨_, rfl, h0, h1, Or.inl ⟨rfl, rfl, rfl, rfl⟩⟩
  | error e =>
    refine ⟨_, rfl, by norm_num, by norm_num, Or.inr ⟨rfl, rfl, rfl, ?_⟩⟩
    exact mk_person_intelligence_err hmk

lemma run_intelligence_workflow_eq (o : Oracles) (name : String)
    (profiles : List (String × List SocialMediaProfile)) (peps : List PEPRecord)
    (articles : List NewsArticle) {r : PersonIntelligence}
    (h : (create_result (assess_risk o (generate_intelligence_summary o
      (analyze_media_data o (analyze_pep_data o (analyze_social_media o
        (collect_data (generate_search_strategy o
          (initial_state name profiles peps articles))))))))).result = some r) :
    run_intelligence_workflow o name profiles peps articles = r := by
  unfold run_intelligence_workflow run_workflow_state
  rw [h]
  rfl

/-- C1: for every name, input record set and every behaviour of the six
external collaborator calls — including every one failing — the workflow
reaches its terminal state and returns a record whose risk level is one
of the five enumeration values and whose confidence score lies in
`[0, 1]`.  (Termination is by construction: the embedded run is a total
function.) -/
theorem C1_workflow_terminates_in_bounds :
    ∀ (o : Oracles) (name : String)
      (profiles : List (String × List SocialMediaProfile)) (peps : List PEPRecord)
      (articles : List NewsArticle),
    ∃ r : PersonIntelligence,
      run_intelligence_workflow o name profiles peps articles = r ∧
      (r.risk_level = .UNKNOWN ∨ r.risk_level = .LOW ∨ r.risk_level = .MEDIUM ∨
        r.risk_level = .HIGH ∨ r.risk_level = .CRITICAL) ∧
      0 ≤ r.confidence_score ∧ r.confidence_score ≤ 1 := by
  intro o name profiles peps articles
  obtain ⟨r, hres, h0, h1, _⟩ := create_result_spec (assess_risk o
    (generate_intelligence_summary o (analyze_media_data o (analyze_pep_data o
      (analyze_social_media o (collect_data (generate_search_strategy o
        (initial_state name profiles peps articles))))))))
  exact ⟨r, run_intelligence_workflow_eq o name profiles peps articles hres,
    risk_level_cases _, h0, h1⟩

lemma subset_of_sources_eq {st st' : WorkflowState}
    (hc : st'.sources_checked = st.sources_checked)
    (hs : st'.sources_successful = st.sources_successful)
    (h : st.sources_successful ⊆ st.sources_checked) :
    st'.sources_successful ⊆ st'.sources_checked := by
  rw [hc, hs]
  exact h

lemma sources_generate_search_strategy (o : Oracles) (st : WorkflowState) :
    (generate_search_strategy o st).sources_checked = st.sources_checked ∧
    (generate_search_strategy o st).sources_successful = st.sources_successful := by
  cases h : o.strategyO <;> simp [generate_search_strategy, h]

lemma sources_analyze_social_media (o : Oracles) (st : WorkflowState) :
    (analyze_social_media o st).sources_checked = st.sources_checked ∧
    (analyze_social_media o st).sources_successful = st.sources_successful := by
  cases h : o.socialO <;> simp [analyze_social_media, h]

lemma sources_analyze_pep_data (o : Oracles) (st : WorkflowState) :
    (analyze_pep_data o st).sources_checked = st.sources_checked ∧
    (analyze_pep_data o st).sources_successful = st.sources_successful := by
  cases h : o.pepO <;> simp [analyze_pep_data, h]

lemma sources_analyze_media_data (o : Oracles) (st : WorkflowState) :
    (analyze_media_data o st).sources_checked = st.sources_checked ∧
    (analyze_media_data o st).sources_successful = st.sources_successful := by
  cases h : o.mediaO <;> simp [analyze_media_data, h]

lemma sources_generate_intelligence_summary (o : Oracles) (st : WorkflowState) :
    (generate_intelligence_summary o st).sources_checked = st.sources_checked ∧
    (generate_intelligence_summary o st).sources_successful = st.sources_successful := by
  cases h : o.summaryO <;> simp [generate_intelligence_summary, h]

lemma sources_assess_risk (o : Oracles) (st : WorkflowState) :
    (assess_risk o st).sources_checked = st.sources_checked ∧
    (assess_risk o st).sources_successful = st.sources_successful :=
  ⟨rfl, rfl⟩

lemma sources_collect_data (st : WorkflowState)
    (h : st.sources_successful ⊆ st.sources_checked) :
    (collect_data st).sources_successful ⊆ (collect_data st).sources_checked := by
  simp only [collect_data]
  gcongr
  by_cases hc : st.sources_checked = ∅
  · have hs : st.sources_successful = ∅ :=
      Finset.subset_empty.mp (hc ▸ h)
    rw [if_pos hc, if_pos hs]
  · rw [if_neg hc]
    split
    · exact Finset.empty_subset _
    · exact h

lemma sources_create_result (st : WorkflowState) :
    (create_result st).sources_checked = st.sources_checked ∧
    (create_result st).sources_successful = st.sources_successful := by
  unfold create_result
  cases hmk : mk_person_intelligence st.name st.social_media_profiles st.pep_records
      st.news_articles (st.intelligence_summary.getD "")
      (st.risk_level.getD .UNKNOWN) (st.confidence_score.getD 0)
      st.sources_checked st.sources_successful st.errors <;>
    exact ⟨rfl, rfl⟩

/-- C2: in every state the workflow run passes through, and in the final
aggregate record of every run, `sources_successful ⊆ sources_checked`:
the only node that touches the two observability sets is `collect_data`,
which always adds the same source names to both. -/
theorem C2_sources_subset :
    ∀ (o : Oracles) (name : String)
      (profiles : List (String × List SocialMediaProfile)) (peps : List PEPRecord)
      (articles : List NewsArticle),
    (∀ st ∈ workflow_states o (initial_state name profiles peps articles),
      st.sources_successful ⊆ st.sources_checked) ∧
    (run_intelligence_workflow o name profiles peps articles).sources_successful ⊆
      (run_intelligence_workflow o name profiles peps articles).sources_checked := by
  intro o name profiles peps articles
  set st0 := initial_state name profiles peps articles with hst0
  have h0 : st0.sources_successful ⊆ st0.sources_checked := by
    simp [hst0, initial_state]
  have h1 := subset_of_sources_eq (sources_generate_search_strategy o st0).1
    (sources_generate_search_strategy o st0).2 h0
  have h2 := sources_collect_data _ h1
  have h3 := subset_of_sources_eq (sources_analyze_social_media o _).1
    (sources_analyze_social_media o _).2 h2
  have h4 := subset_of_sources_eq (sources_analyze_pep_data o _).1
    (sources_analyze_pep_data o _).2 h3
  have h5 := subset_of_sources_eq (sources_analyze_media_data o _).1
    (sources_analyze_media_data o _).2 h4
  have h6 := subset_of_sources_eq (sources_generate_intelligence_summary o _).1
    (sources_generate_intelligence_summary o _).2 h5
  have h7 := subset_of_sources_eq (sources_assess_risk o _).1
    (sources_assess_risk o _).2 h6
  have h8 := subset_of_sources_eq (sources_create_result _).1
    (sources_create_result _).2 h7
  constructor
  · intro st hst
    simp only [workflow_states, List.mem_cons, List.not_mem_nil, or_false] at hst
    rcases hst with rfl | rfl | rfl | rfl | rfl | rfl | rfl | rfl | rfl
    · exact h0
    · exact h1
    · exact h2
    · exact h3
    · exact h4
    · exact h5
    · exact h6
    · exact h7
    · exact h8
  · obtain ⟨r, hres, _, _, hcases⟩ := create_result_spec (assess_risk o
      (generate_intelligence_summary o (analyze_media_data o (analyze_pep_data o
        (analyze_social_media o (collect_data (generate_search_strategy o st0)))))))
    rw [run_intelligence_workflow_eq o name profiles peps articles hres]
    rcases hcases with ⟨_, _, hck, hsu⟩ | ⟨_, hck, hsu, _⟩
    · rw [hck, hsu]
      exact h7
    · rw [hck, hsu]

/-- A record supplied to the C2 witness run. -/
def c2_pep_record : PEPRecord :=
  ⟨"src", "N", none, none, none, none, [], [], none, 1⟩

/-- Witness for C2: the invariant instantiated on a trivial run (all
collaborators succeed, one PEP record supplied) at the state right after
collection. -/
theorem C2_sources_subset_witness :
    (collect_data (generate_search_strategy
        ⟨.ok ⟨"Al", [], [], [], [], "1 year"⟩, .ok "s", .ok "p", .ok "m", .ok "u",
          .ok "r"⟩
        (initial_state "Al" [] [c2_pep_record] []))).sources_successful ⊆
      (collect_data (generate_search_strategy
        ⟨.ok ⟨"Al", [], [], [], [], "1 year"⟩, .ok "s", .ok "p", .ok "m", .ok "u",
          .ok "r"⟩
        (initial_state "Al" [] [c2_pep_record] []))).sources_checked := by
  have h := (C2_sources_subset
    ⟨.ok ⟨"Al", [], [], [], [], "1 year"⟩, .ok "s", .ok "p", .ok "m", .ok "u",
      .ok "r"⟩ "Al" [] [c2_pep_record] []).1
  exact h _ (by simp [workflow_states])

/-- Oracles for the C8 counterexample, first run: every collaborator
succeeds except the risk-assessment text generation. -/
def c8_oracle_fail : Oracles :=
  { strategyO := .ok ⟨"Al", [], [], [], [], "1 year"⟩, socialO := .ok "sa",
    pepO := .ok "pa", mediaO := .ok "ma", summaryO := .ok "su",
    riskO := .error "boom" }

/-- Oracles for the C8 counterexample, second run: the risk collaborator
answers with a parseable level but an out-of-range confidence
percentage, making result assembly itself fall back. -/
def c8_oracle_over : Oracles :=
  { strategyO := .ok ⟨"Al", [], [], [], [], "1 year"⟩, socialO := .ok "sa",
    pepO := .ok "pa", mediaO := .ok "ma", summaryO := .ok "su",
    riskO := .ok "Risk Level: High. Confidence: 250%" }

/-- Counterexample for C8, two parts.  First: when the risk collaborator
fails (and nothing else does), the final record has `risk_level =
unknown` and `confidence = 0` but its error list is *empty* — the error
entry lands in the risk agent's internal sub-graph state, which is
discarded, never in the shared list the claim names.  Second: a run
whose risk stage successfully parses `HIGH` still terminates with
`risk_level = unknown`, produced by the result-assembly stage's fallback
(the parsed confidence `250% = 2.5` fails validation) — so the risk
stage is not the only stage that can yield a terminal unknown. -/
theorem C8_risk_unknown_counterexample :
    (run_intelligence_workflow c8_oracle_fail "Al" [] [] []).risk_level =
      .UNKNOWN ∧
    (run_intelligence_workflow c8_oracle_fail "Al" [] [] []).confidence_score = 0 ∧
    (run_intelligence_workflow c8_oracle_fail "Al" [] [] []).errors = [] ∧
    (risk_agent_assess c8_oracle_over.riskO).1 = .HIGH ∧
    (run_intelligence_workflow c8_oracle_over "Al" [] [] []).risk_level =
      .UNKNOWN := by
  refine ⟨by decide, by decide, by decide, by decide, by decide⟩

/-- C8 (amended): when the text reaching the risk parser is empty or
unparseable — in particular whenever the collaborator call failed and
the substituted error string does not itself parse — the risk stage
yields `risk_level = unknown` with `confidence = 0.0`; the risk stage
never modifies the workflow's shared error list (its error entries go to
the agent-internal state, which is discarded); a terminal `unknown`
arises only from the risk stage itself or from result assembly's
fallback when the assessed confidence fails the `[0,1]` validation; and
a successfully parsed level with in-range confidence always reaches the
final record unchanged. -/
theorem C8_risk_unknown_path :
    (∀ (o : Oracles) (st : WorkflowState),
      (risk_input_text o.riskO = "" ∨
        extract_risk_level (risk_input_text o.riskO) = none) →
      (assess_risk o st).risk_level = some .UNKNOWN ∧
      (assess_risk o st).confidence_score = some 0 ∧
      (assess_risk o st).errors = st.errors) ∧
    (∀ (o : Oracles) (st : WorkflowState), (assess_risk o st).errors = st.errors) ∧
    (∀ (o : Oracles) (name : String)
      (profiles : List (String × List SocialMediaProfile)) (peps : List PEPRecord)
      (articles : List NewsArticle),
      (run_intelligence_workflow o name profiles peps articles).risk_level =
        .UNKNOWN →
      (risk_agent_assess o.riskO).1 = .UNKNOWN ∨
      ¬ (0 ≤ (risk_agent_assess o.riskO).2.1 ∧
          (risk_agent_assess o.riskO).2.1 ≤ 1)) ∧
    (∀ (o : Oracles) (name : String)
      (profiles : List (String × List SocialMediaProfile)) (peps : List PEPRecord)
      (articles : List NewsArticle),
      0 ≤ (risk_agent_assess o.riskO).2.1 →
      (risk_agent_assess o.riskO).2.1 ≤ 1 →
      (run_intelligence_workflow o name profiles peps articles).risk_level =
        (risk_agent_assess o.riskO).1 ∧
      (run_intelligence_workflow o name profiles peps articles).confidence_score =
        (risk_agent_assess o.riskO).2.1) := by
  have hassess : ∀ (o : Oracles) (st : WorkflowState),
      (assess_risk o st).risk_level = some (risk_agent_assess o.riskO).1 ∧
      (assess_risk o st).confidence_score = some (risk_agent_assess o.riskO).2.1 :=
    fun o st => ⟨rfl, rfl⟩
  refine ⟨?_, fun o st => rfl, ?_, ?_⟩
  · intro o st hbad
    have hval1 : (risk_agent_assess o.riskO).1 = .UNKNOWN := by
      simp only [risk_agent_assess]
      rcases hbad with hempty | hnone
      · rw [if_pos hempty]
      · rw [hnone]
        split <;> rfl
    have hval2 : (risk_agent_assess o.riskO).2.1 = 0 := by
      simp only [risk_agent_assess]
      rcases hbad with hempty | hnone
      · rw [if_pos hempty]
      · rw [hnone]
        split <;> rfl
    refine ⟨?_, ?_, rfl⟩
    · rw [(hassess o st).1, hval1]
    · rw [(hassess o st).2, hval2]
  · intro o name profiles peps articles hunknown
    obtain ⟨r, hres, _, _, hcases⟩ := create_result_spec (assess_risk o
      (generate_intelligence_summary o (analyze_media_data o (analyze_pep_data o
        (analyze_social_media o (collect_data (generate_search_strategy o
          (initial_state name profiles peps articles))))))))
    rw [run_intelligence_workflow_eq o name profiles peps articles hres] at hunknown
    rcases hcases with ⟨hrl, _, _, _⟩ | ⟨_, _, _, hbad⟩
    · left
      rw [hunknown] at hrl
      rw [(hassess o _).1] at hrl
      exact hrl.symm
    · right
      rw [(hassess o _).2] at hbad
      simpa using hbad
  · intro o name profiles peps articles hc0 hc1
    obtain ⟨r, hres, _, _, hcases⟩ := create_result_spec (assess_risk o
      (generate_intelligence_summary o (analyze_media_data o (analyze_pep_data o
        (analyze_social_media o (collect_data (generate_search_strategy o
          (initial_state name profiles peps articles))))))))
    rw [run_intelligence_workflow_eq o name profiles peps articles hres]
    rcases hcases with ⟨hrl, hcf, _, _⟩ | ⟨_, _, _, hbad⟩
    · rw [hrl, hcf, (hassess o _).1, (hassess o _).2]
      exact ⟨rfl, rfl⟩
    · rw [(hassess o _).2] at hbad
      exact absurd ⟨by simpa using hc0, by simpa using hc1⟩ hbad

/-- Witness for C8: an unparseable risk answer yields unknown with zero
confidence and leaves the shared error list of the prior state intact;
a parseable `low, 40%` answer reaches the final record. -/
theorem C8_risk_unknown_path_witness :
    (assess_risk ⟨.ok ⟨"Al", [], [], [], [], "1 year"⟩, .ok "sa", .ok "pa",
        .ok "ma", .ok "su", .ok "no verdict here"⟩
      (initial_state "Al" [] [] [])).risk_level = some .UNKNOWN ∧
    (run_intelligence_workflow ⟨.ok ⟨"Al", [], [], [], [], "1 year"⟩, .ok "sa",
        .ok "pa", .ok "ma", .ok "su", .ok "Risk Level: Low. Confidence: 40%"⟩
      "Al" [] [] []).risk_level = .LOW := by
  constructor
  · exact (C8_risk_unknown_path.1 _ (initial_state "Al" [] [] [])
      (Or.inr (by decide))).1
  · have h := (C8_risk_unknown_path.2.2.2 ⟨.ok ⟨"Al", [], [], [], [], "1 year"⟩,
      .ok "sa", .ok "pa", .ok "ma", .ok "su",
      .ok "Risk Level: Low. Confidence: 40%"⟩ "Al" [] [] []
      (by decide) (by decide)).1
    rw [h]
    decide

end PersonIntel
